import Mathlib

/-!
Verification of the HubSpot learner sync core (`learner.py`).

The store is modelled shallowly: an SQL table is a list of rows, a row is an
association list from column names to SQL values (`none` models SQL NULL, and
also a column absent from the row, which reads as NULL). The function
`upsert` embeds the statement
`INSERT INTO t (cols) VALUES (vals) ON CONFLICT(pk) DO UPDATE SET c=excluded.c ...`
built by `upsert(table, data, pk)` in the source: if some row's primary-key
column equals the incoming row's (SQL equality, so NULL conflicts with
nothing), every provided column of that row is overwritten with the incoming
value; otherwise the incoming row is appended.

The background loop `learning_loop` is embedded as `cycleBody` (the body of
the `try:` block, propagating the first raised exception together with the
store state already committed at that point, since each upsert commits) and
`runCycle` (the loop body with the `except Exception` handler applied);
`learning_loop_n` iterates `runCycle` over a finite prefix of the infinite
loop, one `CycleInput` per cycle. A fetch (`await client.post`) is modelled
by `FetchResult`: it either raises (timeout, transport error) or returns a
status code with the parsed `results` list.

The reporting queries of `learning_suggestions` are embedded as list
functions over the stored rows, one per SQL query.
-/

abbrev Value := Option String

abbrev Row := List (String × Value)

/-- Reading column `c` of a row: the first binding named `c`, NULL when absent. -/
def getCol : Row → String → Value
  | [], _ => none
  | p :: ps, c => if p.1 = c then p.2 else getCol ps c

/-- Python `props.get(k)`: the bound value, `None` when the key is absent. -/
def getProp : List (String × Value) → String → Value
  | [], _ => none
  | p :: ps, k => if p.1 = k then p.2 else getProp ps k

/-- SQL equality on primary-key values: NULL is equal to nothing, not even NULL. -/
def keyMatches : Value → Value → Bool
  | some a, some b => decide (a = b)
  | _, _ => false

/-- Overwrite every binding named `c` with `v`, leaving other bindings alone. -/
def setAll : Row → String → Value → Row
  | [], _, _ => []
  | p :: ps, c, v => (if p.1 = c then (c, v) else p) :: setAll ps c v

/-- Assign column `c` of a row to `v` (append the binding when absent). -/
def setCol (r : Row) (c : String) (v : Value) : Row :=
  if r.any (fun p => p.1 = c) then setAll r c v else r ++ [(c, v)]

/-- `DO UPDATE SET c=excluded.c` for every column `c` provided by `data`. -/
def updateRow (data : Row) (r : Row) : Row :=
  data.foldl (fun acc p => setCol acc p.1 p.2) r

/-- Number of rows of the table whose primary-key column SQL-equals `v`. -/
def keyCount (rows : List Row) (pk : String) (v : Value) : Nat :=
  (rows.filter (fun r => keyMatches (getCol r pk) v)).length

/-- The upsert statement of `learner.py`:
`INSERT INTO table (...) VALUES (...) ON CONFLICT(pk) DO UPDATE SET c=excluded.c, ...`
with one `SET` item per column of `data`. -/
def upsert (rows : List Row) (data : Row) (pk : String) : List Row :=
  if rows.any (fun r => keyMatches (getCol r pk) (getCol data pk)) then
    rows.map (fun r => if keyMatches (getCol r pk) (getCol data pk) then updateRow data r else r)
  else
    rows ++ [data]

/-- A parsed entry of the upstream `results` list: `{id, properties}`. -/
structure RawRecord where
  id : Value
  properties : List (String × Value)
deriving Repr, DecidableEq

/-- Outcome of one `await client.post(...)`: either an exception is raised
(timeout, transport error) or a response with a status code and a parsed
`results` list comes back. -/
inductive FetchResult where
  | raised : String → FetchResult
  | response : Nat → List RawRecord → FetchResult
deriving Repr, DecidableEq

/-- The four tables created by `init_db`. -/
structure Store where
  tickets : List Row
  companies : List Row
  contacts : List Row
  deals : List Row
deriving Repr, DecidableEq

def emptyStore : Store := ⟨[], [], [], []⟩

/-- The four fetch outcomes of one cycle of `learning_loop`, in source order. -/
structure CycleInput where
  ticketsResp : FetchResult
  companiesResp : FetchResult
  contactsResp : FetchResult
  dealsResp : FetchResult
deriving Repr, DecidableEq

/-- The ticket row built by `learning_loop`; `now` is the value of
`datetime.utcnow().isoformat()` taken at this record's upsert. -/
def normTicket (t : RawRecord) (now : String) : Row :=
  [("ticket_id", t.id),
   ("subject", getProp t.properties "subject"),
   ("content", getProp t.properties "content"),
   ("created_at", getProp t.properties "createdate"),
   ("last_seen", some now)]

/-- The company row built by `learning_loop`. -/
def normCompany (cdata : RawRecord) (now : String) : Row :=
  [("company_id", cdata.id),
   ("name", getProp cdata.properties "name"),
   ("domain", getProp cdata.properties "domain"),
   ("last_seen", some now)]

/-- The contact row built by `learning_loop`. -/
def normContact (cdata : RawRecord) (now : String) : Row :=
  [("contact_id", cdata.id),
   ("email", getProp cdata.properties "email"),
   ("firstname", getProp cdata.properties "firstname"),
   ("lastname", getProp cdata.properties "lastname"),
   ("company_id", getProp cdata.properties "company"),
   ("last_seen", some now)]

/-- The deal row built by `learning_loop` (the REAL `amount` is kept as an
opaque stored value; no claim depends on its numeric reading). -/
def normDeal (d : RawRecord) (now : String) : Row :=
  [("deal_id", d.id),
   ("dealname", getProp d.properties "dealname"),
   ("amount", getProp d.properties "amount"),
   ("stage", getProp d.properties "dealstage"),
   ("company_id", getProp d.properties "associatedcompanyid"),
   ("last_seen", some now)]

/-- One `for ... in r.json().get("results", [])` loop: upsert each record into
one table, reading the clock once per record. `n` is the number of clock
reads already made, so record `i` of the loop is stamped `clock (n + i)`. -/
def upsertFold (pk : String) (norm : RawRecord → String → Row) (clock : Nat → String) :
    List RawRecord → List Row → Nat → List Row × Nat
  | [], rows, n => (rows, n)
  | t :: ts, rows, n => upsertFold pk norm clock ts (upsert rows (norm t (clock n)) pk) (n + 1)

def upsertTickets (clock : Nat → String) (results : List RawRecord) (s : Store) (n : Nat) :
    Store × Nat :=
  let p := upsertFold "ticket_id" normTicket clock results s.tickets n
  ({ s with tickets := p.1 }, p.2)

def upsertCompanies (clock : Nat → String) (results : List RawRecord) (s : Store) (n : Nat) :
    Store × Nat :=
  let p := upsertFold "company_id" normCompany clock results s.companies n
  ({ s with companies := p.1 }, p.2)

def upsertContacts (clock : Nat → String) (results : List RawRecord) (s : Store) (n : Nat) :
    Store × Nat :=
  let p := upsertFold "contact_id" normContact clock results s.contacts n
  ({ s with contacts := p.1 }, p.2)

def upsertDeals (clock : Nat → String) (results : List RawRecord) (s : Store) (n : Nat) :
    Store × Nat :=
  let p := upsertFold "deal_id" normDeal clock results s.deals n
  ({ s with deals := p.1 }, p.2)

/-- One kind inside the `try:` block, as raising code: a raised fetch
exception propagates (carrying the store state already committed), a non-200
response skips the upserts (`if r.status_code == 200`), a 200 response
upserts every result. -/
def stepKindExc (apply : List RawRecord → Store → Nat → Store × Nat)
    (fr : FetchResult) (s : Store) (n : Nat) : Except (String × Store × Nat) (Store × Nat) :=
  match fr with
  | .raised e => .error (e, s, n)
  | .response status results => if status = 200 then .ok (apply results s n) else .ok (s, n)

/-- The body of the `try:` block of `learning_loop`: tickets, companies,
contacts, deals, in source order; the first raised exception aborts the
remaining kinds. -/
def cycleBody (clock : Nat → String) (inp : CycleInput) (s : Store) (n : Nat) :
    Except (String × Store × Nat) (Store × Nat) := do
  let p1 ← stepKindExc (upsertTickets clock) inp.ticketsResp s n
  let p2 ← stepKindExc (upsertCompanies clock) inp.companiesResp p1.1 p1.2
  let p3 ← stepKindExc (upsertContacts clock) inp.contactsResp p2.1 p2.2
  stepKindExc (upsertDeals clock) inp.dealsResp p3.1 p3.2

/-- Loop-body state while the four kinds run: store, clock reads made so far,
and whether an exception has been raised (aborting the remaining kinds). -/
structure LoopSt where
  store : Store
  tick : Nat
  aborted : Bool
deriving Repr, DecidableEq

/-- One kind of the cycle in sequenced form, skipping once aborted. -/
def runStep (apply : List RawRecord → Store → Nat → Store × Nat)
    (fr : FetchResult) (st : LoopSt) : LoopSt :=
  if st.aborted then st else
    match fr with
    | .raised _ => { st with aborted := true }
    | .response status results =>
        if status = 200 then
          let p := apply results st.store st.tick
          { store := p.1, tick := p.2, aborted := false }
        else st

/-- One iteration of `learning_loop`: the `try:` block with its
`except Exception` handler, which logs and falls through to the sleep, the
partially committed upserts kept. -/
def runCycle (clock : Nat → String) (inp : CycleInput) (s : Store) (n : Nat) : Store × Nat :=
  let r1 := runStep (upsertTickets clock) inp.ticketsResp ⟨s, n, false⟩
  let r2 := runStep (upsertCompanies clock) inp.companiesResp r1
  let r3 := runStep (upsertContacts clock) inp.contactsResp r2
  let r4 := runStep (upsertDeals clock) inp.dealsResp r3
  (r4.store, r4.tick)

/-- A finite prefix of the infinite `while True` loop: one `CycleInput` per
cycle, the final store and clock counter returned. -/
def learning_loop_n (clock : Nat → String) : List CycleInput → Store → Nat → Store × Nat
  | [], s, n => (s, n)
  | inp :: rest, s, n =>
      learning_loop_n clock rest (runCycle clock inp s n).1 (runCycle clock inp s n).2

/-- The records a 200 response delivered for one kind; empty on a raised
exception or a non-200 status (no upserts can come from those). -/
def fetched200 : FetchResult → List RawRecord
  | .raised _ => []
  | .response status results => if status = 200 then results else []

/-- The subjects the knowledge-base query ranges over:
`WHERE subject IS NOT NULL AND subject != ''` (one occurrence per ticket row). -/
def subjectsList (tickets : List Row) : List String :=
  tickets.filterMap (fun r =>
    match getCol r "subject" with
    | some s => if s = "" then none else some s
    | none => none)

/-- `GROUP BY subject` with `COUNT(*)`: one pair per distinct retained subject. -/
def groupCounts (tickets : List Row) : List (String × Nat) :=
  (subjectsList tickets).dedup.map (fun s => (s, (subjectsList tickets).count s))

/-- The `ORDER BY freq DESC` comparison on grouped pairs. -/
def countGE (a b : String × Nat) : Prop := b.2 ≤ a.2

instance : DecidableRel countGE := fun a b => Nat.decLe b.2 a.2

instance : IsTotal (String × Nat) countGE := ⟨fun a b => Nat.le_total b.2 a.2⟩

instance : IsTrans (String × Nat) countGE := ⟨fun _ _ _ h1 h2 => Nat.le_trans h2 h1⟩

/-- The knowledge-base candidates query of `learning_suggestions`:
`SELECT subject, COUNT(*) ... GROUP BY subject ORDER BY freq DESC LIMIT 5`,
each returned pair standing for one `{"subject": ..., "count": ...}` entry. -/
def kb_candidates (tickets : List Row) : List (String × Nat) :=
  ((groupCounts tickets).insertionSort countGE).take 5

/-- The company ids the `>5 deals` grouping ranges over:
`FROM deals WHERE company_id IS NOT NULL` (one occurrence per deal row;
the empty string is not NULL and passes the filter). -/
def dealCompanyIdsNonNull (deals : List Row) : List String :=
  deals.filterMap (fun r => getCol r "company_id")

/-- Number of deals the grouping associates with company id `cid`. -/
def assocDealCount (deals : List Row) (cid : String) : Nat :=
  (dealCompanyIdsNonNull deals).count cid

/-- The `HAVING COUNT(*) > 5` grouping of `learning_suggestions`: the
`heavy_companies` list of company ids with more than five associated deals. -/
def heavy_companies (deals : List Row) : List String :=
  (dealCompanyIdsNonNull deals).dedup.filter (fun cid => 5 < assocDealCount deals cid)

/-- Lexicographic comparison of character lists: the SQL BINARY collation on
TEXT values (identical to byte order on the ASCII date strings compared here). -/
def charListLt : List Char → List Char → Bool
  | [], [] => false
  | [], _ :: _ => true
  | _ :: _, [] => false
  | a :: as, b :: bs => if a < b then true else if b < a then false else charListLt as bs

/-- SQL `<` on two TEXT values. -/
def textLt (a b : String) : Bool := charListLt a.data b.data

/-- The predicate of the escalation query:
`created_at < date('now','-30 days')` under SQL text comparison, NULL never
comparing less; `threshold` stands for the computed `date('now','-30 days')`. -/
def isOldTicket (threshold : String) (r : Row) : Bool :=
  match getCol r "created_at" with
  | some d => textLt d threshold
  | none => false

/-- The escalation count of `learning_suggestions`:
`SELECT COUNT(*) FROM tickets WHERE created_at < date('now','-30 days')`. -/
def old_tickets_count (threshold : String) (tickets : List Row) : Nat :=
  (tickets.filter (isOldTicket threshold)).length

/-- The escalation count as the spec words it: tickets older than the 30-day
threshold (by creation time) **and not yet resolved**, for a given
resolvedness assignment. The stored schema has no resolution column, so the
assignment is a parameter; this definition follows the spec's words and is
compared with `old_tickets_count`, the definition from the source. -/
def escalationCount_specModel (threshold : String) (resolved : Row → Bool)
    (tickets : List Row) : Nat :=
  (tickets.filter (fun r => isOldTicket threshold r && !resolved r)).length

/-- Resolvedness assignment marking every ticket resolved. -/
def allResolved : Row → Bool := fun _ => true

/-- Resolvedness assignment marking no ticket resolved. -/
def noneResolved : Row → Bool := fun _ => false

/-- The orphan-deal predicate of `learning_suggestions`:
`company_id IS NULL OR company_id=''`. -/
def isOrphanDeal (r : Row) : Bool :=
  match getCol r "company_id" with
  | none => true
  | some s => decide (s = "")

/-- The orphan-deal count of `learning_suggestions`:
`SELECT COUNT(*) FROM deals WHERE company_id IS NULL OR company_id=''`. -/
def orphan_deals_count (deals : List Row) : Nat :=
  (deals.filter isOrphanDeal).length

/-- Clock reading "A" on the first call and "B" afterwards. -/
def clockAB : Nat → String := fun n => if n = 0 then "A" else "B"

/-- Clock constantly reading "T". -/
def clockT : Nat → String := fun _ => "T"

def tRaw1 : RawRecord := ⟨some "1", []⟩

def tRaw2 : RawRecord := ⟨some "2", []⟩

/-- A ticket row as stored after an earlier cycle. -/
def c1StoredTicket : Row :=
  [("ticket_id", some "1"), ("subject", some "login fails"), ("content", some "old text"),
   ("created_at", some "2020-01-01T00:00:00"), ("last_seen", some "T0")]

/-- A later fetch of the same ticket with changed content and a different
`createdate` value. -/
def c1Refetch : RawRecord :=
  ⟨some "1", [("subject", some "login fails"), ("content", some "new text"),
              ("createdate", some "2021-05-05T00:00:00")]⟩

def c1Input : CycleInput :=
  ⟨.response 200 [c1Refetch], .response 200 [], .response 200 [], .response 200 []⟩

def c2CompanyRec : RawRecord := ⟨some "c1", [("name", some "Acme"), ("domain", some "acme.com")]⟩

/-- A cycle whose tickets fetch raises a timeout while the companies fetch
would succeed. -/
def c2FailInput : CycleInput :=
  ⟨.raised "ReadTimeout", .response 200 [c2CompanyRec], .response 200 [], .response 200 []⟩

/-- The same cycle with the tickets fetch succeeding (empty page). -/
def c2OkInput : CycleInput :=
  ⟨.response 200 [], .response 200 [c2CompanyRec], .response 200 [], .response 200 []⟩

def c3Input : CycleInput :=
  ⟨.response 200 [tRaw1, tRaw2], .response 200 [], .response 200 [], .response 200 []⟩

def billingTicket (i : String) : Row :=
  [("ticket_id", some i), ("subject", some "billing issue"), ("content", none),
   ("created_at", none), ("last_seen", none)]

/-- Six tickets with subject "billing issue" and one with subject "other". -/
def billingStore : List Row :=
  [billingTicket "1", billingTicket "2", billingTicket "3", billingTicket "4",
   billingTicket "5", billingTicket "6",
   [("ticket_id", some "7"), ("subject", some "other"), ("content", none),
    ("created_at", none), ("last_seen", none)]]

def dealRow (i cid : String) : Row :=
  [("deal_id", some i), ("dealname", none), ("amount", none), ("stage", none),
   ("company_id", some cid), ("last_seen", none)]

/-- Six deals associated with company "c1". -/
def sixDeals : List Row :=
  [dealRow "1" "c1", dealRow "2" "c1", dealRow "3" "c1", dealRow "4" "c1",
   dealRow "5" "c1", dealRow "6" "c1"]

/-- Five deals associated with company "c2". -/
def fiveDeals : List Row :=
  [dealRow "1" "c2", dealRow "2" "c2", dealRow "3" "c2", dealRow "4" "c2", dealRow "5" "c2"]

/-- Six deals whose `company_id` is the empty string. -/
def sixEmptyDeals : List Row :=
  [dealRow "1" "", dealRow "2" "", dealRow "3" "", dealRow "4" "", dealRow "5" "",
   dealRow "6" ""]

def c9Threshold : String := "2025-09-12"

/-- A ticket created long before the 30-day threshold. -/
def c9OldTicket : Row :=
  [("ticket_id", some "1"), ("subject", none), ("content", none),
   ("created_at", some "2020-01-01T00:00:00"), ("last_seen", none)]

/-- A store holding one ticket and one deal from earlier cycles. -/
def c6Store : Store := ⟨[c1StoredTicket], [], [], [dealRow "9" "c9"]⟩

/-- A cycle fetching an unrelated ticket, with the deals fetch raising. -/
def c6Input : CycleInput :=
  ⟨.response 200 [tRaw2], .response 200 [], .response 200 [], .raised "boom"⟩

def c4d1 : Row := [("k", some "1"), ("a", some "x")]

def c4d2 : Row := [("k", some "1"), ("a", some "y")]

theorem getCol_setAll_self (c : String) (v : Value) :
    ∀ r : Row, r.any (fun p => p.1 = c) = true → getCol (setAll r c v) c = v := by
  intro r
  induction r with
  | nil => intro h; simp at h
  | cons p ps ih =>
    intro h
    by_cases hc : p.1 = c
    · simp [setAll, hc, getCol]
    · simp only [setAll, if_neg hc, getCol]
      apply ih
      simpa [List.any_cons, hc] using h

theorem getCol_setAll_ne (c c' : String) (v : Value) (hne : c' ≠ c) :
    ∀ r : Row, getCol (setAll r c v) c' = getCol r c' := by
  intro r
  induction r with
  | nil => rfl
  | cons p ps ih =>
    by_cases hc : p.1 = c
    · have h1 : ¬(c = c') := fun h => hne h.symm
      have h2 : ¬(p.1 = c') := by rw [hc]; exact h1
      simp [setAll, hc, getCol, h1, h2, ih]
    · simp only [setAll, if_neg hc, getCol]
      by_cases h2 : p.1 = c' <;> simp [h2, ih]

theorem getCol_append_single_self (c : String) (v : Value) :
    ∀ r : Row, r.any (fun p => p.1 = c) = false → getCol (r ++ [(c, v)]) c = v := by
  intro r
  induction r with
  | nil => intro _; simp [getCol]
  | cons p ps ih =>
    intro h
    simp only [List.any_cons, Bool.or_eq_false_iff] at h
    have h1 : ¬(p.1 = c) := by simpa using h.1
    simp only [List.cons_append, getCol, if_neg h1]
    exact ih h.2

theorem getCol_append_single_ne (c c' : String) (v : Value) (hne : c' ≠ c) :
    ∀ r : Row, getCol (r ++ [(c, v)]) c' = getCol r c' := by
  intro r
  induction r with
  | nil =>
    have h1 : ¬(c = c') := fun h => hne h.symm
    simp [getCol, h1]
  | cons p ps ih =>
    by_cases h : p.1 = c' <;> simp [getCol, h, ih]

theorem getCol_setCol_self (r : Row) (c : String) (v : Value) :
    getCol (setCol r c v) c = v := by
  unfold setCol
  split
  case isTrue h => exact getCol_setAll_self c v r h
  case isFalse h =>
    simp only [Bool.not_eq_true] at h
    exact getCol_append_single_self c v r h

theorem getCol_setCol_ne (r : Row) (c c' : String) (v : Value) (hne : c' ≠ c) :
    getCol (setCol r c v) c' = getCol r c' := by
  unfold setCol
  split
  · exact getCol_setAll_ne c c' v hne r
  · exact getCol_append_single_ne c c' v hne r

theorem updateRow_nil (r : Row) : updateRow [] r = r := rfl

theorem updateRow_cons (p : String × Value) (ps : Row) (r : Row) :
    updateRow (p :: ps) r = updateRow ps (setCol r p.1 p.2) := rfl

theorem getCol_updateRow_not_mem (c : String) :
    ∀ (data : Row) (r : Row), c ∉ data.map Prod.fst →
      getCol (updateRow data r) c = getCol r c := by
  intro data
  induction data with
  | nil => intro r _; rfl
  | cons p ps ih =>
    intro r h
    have h1 : c ≠ p.1 := fun he => h (by simp [he])
    have h2 : c ∉ ps.map Prod.fst := fun hm => h (by simp [hm])
    rw [updateRow_cons, ih _ h2, getCol_setCol_ne _ _ _ _ h1]

theorem getCol_updateRow_mem (c : String) (v : Value) :
    ∀ (data : Row) (r : Row), (data.map Prod.fst).Nodup → (c, v) ∈ data →
      getCol (updateRow data r) c = v := by
  intro data
  induction data with
  | nil => intro r _ hm; cases hm
  | cons p ps ih =>
    intro r hnd hm
    rw [updateRow_cons]
    rcases List.mem_cons.mp hm with he | hm'
    · have hp1 : p.1 = c := by rw [← he]
      have hp2 : p.2 = v := by rw [← he]
      rw [List.map_cons] at hnd
      have hcn : c ∉ ps.map Prod.fst := by
        have hh := (List.nodup_cons.mp hnd).1
        rwa [hp1] at hh
      rw [getCol_updateRow_not_mem c ps _ hcn, hp1, hp2, getCol_setCol_self]
    · rw [List.map_cons] at hnd
      exact ih _ (List.nodup_cons.mp hnd).2 hm'

theorem getCol_of_mem_nodup (c : String) (w : Value) :
    ∀ d : Row, (d.map Prod.fst).Nodup → (c, w) ∈ d → getCol d c = w := by
  intro d
  induction d with
  | nil => intro _ hm; cases hm
  | cons p ps ih =>
    intro hnd hm
    rcases List.mem_cons.mp hm with he | hm'
    · have hp1 : p.1 = c := by rw [← he]
      simp [getCol, hp1, ← he]
    · rw [List.map_cons] at hnd
      have hne : ¬(p.1 = c) := by
        intro hpc
        have hh := (List.nodup_cons.mp hnd).1
        have hcm : c ∈ ps.map Prod.fst := List.mem_map.mpr ⟨(c, w), hm', rfl⟩
        rw [hpc] at hh
        exact hh hcm
      simp only [getCol, if_neg hne]
      exact ih (List.nodup_cons.mp hnd).2 hm'

theorem mem_of_getCol_some (c x : String) :
    ∀ d : Row, getCol d c = some x → (c, some x) ∈ d := by
  intro d
  induction d with
  | nil => intro h; simp [getCol] at h
  | cons p ps ih =>
    intro h
    by_cases hc : p.1 = c
    · have hv : p.2 = some x := by simpa [getCol, hc] using h
      exact List.mem_cons.mpr (Or.inl (by rw [← hc, ← hv]))
    · exact List.mem_cons.mpr (Or.inr (ih (by simpa [getCol, hc] using h)))

theorem keyMatches_iff (u v : Value) :
    keyMatches u v = true ↔ ∃ x, u = some x ∧ v = some x := by
  cases u <;> cases v <;> simp [keyMatches, eq_comm]

theorem keyMatches_some_self (k : String) : keyMatches (some k) (some k) = true := by
  simp [keyMatches]

theorem mem_upsert_of_not_match (rows : List Row) (data : Row) (pk : String) (r : Row)
    (hr : r ∈ rows) (hnm : keyMatches (getCol r pk) (getCol data pk) = false) :
    r ∈ upsert rows data pk := by
  unfold upsert
  split
  · exact List.mem_map.mpr ⟨r, hr, by simp [hnm]⟩
  · exact List.mem_append_left _ hr

theorem exists_same_key_upsert (rows : List Row) (data : Row) (pk : String) (r : Row)
    (hnd : (data.map Prod.fst).Nodup) (hr : r ∈ rows) :
    ∃ r', r' ∈ upsert rows data pk ∧ getCol r' pk = getCol r pk := by
  by_cases hm : keyMatches (getCol r pk) (getCol data pk) = true
  · rcases (keyMatches_iff _ _).mp hm with ⟨x, hrx, hdx⟩
    have hany : (rows.any fun row => keyMatches (getCol row pk) (getCol data pk)) = true :=
      List.any_eq_true.mpr ⟨r, hr, hm⟩
    refine ⟨updateRow data r, ?_, ?_⟩
    · unfold upsert
      rw [if_pos hany]
      exact List.mem_map.mpr ⟨r, hr, by simp [hm]⟩
    · have hmem : (pk, some x) ∈ data := mem_of_getCol_some _ _ _ hdx
      rw [getCol_updateRow_mem pk (some x) data r hnd hmem, hrx]
  · simp only [Bool.not_eq_true] at hm
    exact ⟨r, mem_upsert_of_not_match rows data pk r hr hm, rfl⟩

theorem getCol_upsert_match (rows : List Row) (data : Row) (pk k : String)
    (hd : getCol data pk = some k) (hnd : (data.map Prod.fst).Nodup)
    (c : String) (w : Value) (hcw : (c, w) ∈ data) :
    ∀ r ∈ upsert rows data pk, keyMatches (getCol r pk) (some k) = true → getCol r c = w := by
  intro r hr hk
  unfold upsert at hr
  split at hr
  case isTrue hany =>
    rcases List.mem_map.mp hr with ⟨a, ha, hfa⟩
    by_cases hma : keyMatches (getCol a pk) (getCol data pk) = true
    · rw [if_pos hma] at hfa
      rw [← hfa]
      exact getCol_updateRow_mem c w data a hnd hcw
    · rw [if_neg hma] at hfa
      rw [← hfa] at hk
      rw [hd] at hma
      exact absurd hk hma
  case isFalse hany =>
    rcases List.mem_append.mp hr with hrl | hrr
    · exfalso
      exact hany (List.any_eq_true.mpr ⟨r, hrl, by rw [hd]; exact hk⟩)
    · have hrd : r = data := by simpa using hrr
      rw [hrd]
      exact getCol_of_mem_nodup c w data hnd hcw

theorem length_filter_map_pred {α β : Type} (f : α → β) (q : β → Bool) (l : List α) :
    ((l.map f).filter q).length = (l.filter (fun a => q (f a))).length := by
  induction l with
  | nil => rfl
  | cons a l ih =>
    by_cases h : q (f a) = true <;> simp [h, ih]

theorem keyCount_upsert_self (rows : List Row) (data : Row) (pk k : String)
    (hd : getCol data pk = some k) (hnd : (data.map Prod.fst).Nodup)
    (hc : keyCount rows pk (some k) ≤ 1) :
    keyCount (upsert rows data pk) pk (some k) = 1 := by
  unfold upsert
  split
  case isTrue hany =>
    have hstep : keyCount
        (rows.map fun r =>
          if keyMatches (getCol r pk) (getCol data pk) then updateRow data r else r)
        pk (some k) = keyCount rows pk (some k) := by
      unfold keyCount
      rw [length_filter_map_pred]
      congr 1
      apply List.filter_congr
      intro a _
      by_cases hma : keyMatches (getCol a pk) (getCol data pk) = true
      · rw [if_pos hma]
        have hgu : getCol (updateRow data a) pk = some k :=
          getCol_updateRow_mem pk (some k) data a hnd (mem_of_getCol_some _ _ _ hd)
        rw [hgu, keyMatches_some_self]
        rw [hd] at hma
        rw [hma]
      · rw [if_neg hma]
    rw [hstep]
    have hge : 1 ≤ keyCount rows pk (some k) := by
      unfold keyCount
      rcases List.any_eq_true.mp hany with ⟨a, ha, hka⟩
      rw [hd] at hka
      have hmem : a ∈ rows.filter fun r => keyMatches (getCol r pk) (some k) :=
        List.mem_filter.mpr ⟨ha, hka⟩
      exact List.length_pos.mpr (List.ne_nil_of_mem hmem)
    omega
  case isFalse hany =>
    have hz : keyCount rows pk (some k) = 0 := by
      unfold keyCount
      rw [List.length_eq_zero]
      rw [List.filter_eq_nil_iff]
      intro a ha
      intro hka
      apply hany
      refine List.any_eq_true.mpr ⟨a, ha, ?_⟩
      rw [hd]
      exact hka
    unfold keyCount at hz ⊢
    rw [List.filter_append, List.length_append, hz]
    simp [List.filter, hd, keyMatches_some_self]

theorem upsertFold_nil (pk : String) (norm : RawRecord → String → Row) (clock : Nat → String)
    (rows : List Row) (n : Nat) : upsertFold pk norm clock [] rows n = (rows, n) := rfl

theorem upsertFold_cons (pk : String) (norm : RawRecord → String → Row) (clock : Nat → String)
    (t : RawRecord) (ts : List RawRecord) (rows : List Row) (n : Nat) :
    upsertFold pk norm clock (t :: ts) rows n =
      upsertFold pk norm clock ts (upsert rows (norm t (clock n)) pk) (n + 1) := rfl

theorem normTicket_getCol_id (t : RawRecord) (now : String) :
    getCol (normTicket t now) "ticket_id" = t.id := by simp [normTicket, getCol]

theorem normCompany_getCol_id (t : RawRecord) (now : String) :
    getCol (normCompany t now) "company_id" = t.id := by simp [normCompany, getCol]

theorem normContact_getCol_id (t : RawRecord) (now : String) :
    getCol (normContact t now) "contact_id" = t.id := by simp [normContact, getCol]

theorem normDeal_getCol_id (t : RawRecord) (now : String) :
    getCol (normDeal t now) "deal_id" = t.id := by simp [normDeal, getCol]

theorem normTicket_keys_nodup (t : RawRecord) (now : String) :
    ((normTicket t now).map Prod.fst).Nodup := by
  rw [show (normTicket t now).map Prod.fst
        = ["ticket_id", "subject", "content", "created_at", "last_seen"] from rfl]
  decide

theorem normCompany_keys_nodup (t : RawRecord) (now : String) :
    ((normCompany t now).map Prod.fst).Nodup := by
  rw [show (normCompany t now).map Prod.fst
        = ["company_id", "name", "domain", "last_seen"] from rfl]
  decide

theorem normContact_keys_nodup (t : RawRecord) (now : String) :
    ((normContact t now).map Prod.fst).Nodup := by
  rw [show (normContact t now).map Prod.fst
        = ["contact_id", "email", "firstname", "lastname", "company_id", "last_seen"] from rfl]
  decide

theorem normDeal_keys_nodup (t : RawRecord) (now : String) :
    ((normDeal t now).map Prod.fst).Nodup := by
  rw [show (normDeal t now).map Prod.fst
        = ["deal_id", "dealname", "amount", "stage", "company_id", "last_seen"] from rfl]
  decide

theorem upsertFold_frame (pk : String) (norm : RawRecord → String → Row) (clock : Nat → String)
    (hid : ∀ t now, getCol (norm t now) pk = t.id) :
    ∀ (rs : List RawRecord) (rows : List Row) (n : Nat) (r : Row),
      r ∈ rows → (∀ t ∈ rs, keyMatches (getCol r pk) t.id = false) →
      r ∈ (upsertFold pk norm clock rs rows n).1 := by
  intro rs
  induction rs with
  | nil => intro rows n r hr _; exact hr
  | cons t ts ih =>
    intro rows n r hr hnm
    rw [upsertFold_cons]
    apply ih
    · apply mem_upsert_of_not_match _ _ _ _ hr
      rw [hid]
      exact hnm t (List.mem_cons_self t ts)
    · intro t' ht'
      exact hnm t' (List.mem_cons_of_mem _ ht')

theorem upsertFold_key (pk : String) (norm : RawRecord → String → Row) (clock : Nat → String)
    (hnd : ∀ t now, ((norm t now).map Prod.fst).Nodup) :
    ∀ (rs : List RawRecord) (rows : List Row) (n : Nat) (r : Row), r ∈ rows →
      ∃ r', r' ∈ (upsertFold pk norm clock rs rows n).1 ∧ getCol r' pk = getCol r pk := by
  intro rs
  induction rs with
  | nil => intro rows n r hr; exact ⟨r, hr, rfl⟩
  | cons t ts ih =>
    intro rows n r hr
    rcases exists_same_key_upsert rows (norm t (clock n)) pk r (hnd t (clock n)) hr with
      ⟨r1, hr1, hk1⟩
    rcases ih (upsert rows (norm t (clock n)) pk) (n + 1) r1 hr1 with ⟨r2, hr2, hk2⟩
    rw [upsertFold_cons]
    exact ⟨r2, hr2, by rw [hk2, hk1]⟩

theorem runStep_preserve_tickets (apply : List RawRecord → Store → Nat → Store × Nat)
    (hp : ∀ rs s n, (apply rs s n).1.tickets = s.tickets) (fr : FetchResult) (st : LoopSt) :
    (runStep apply fr st).store.tickets = st.store.tickets := by
  unfold runStep
  split
  · rfl
  · split
    · rfl
    · split
      · exact hp _ st.store st.tick
      · rfl

theorem runStep_preserve_companies (apply : List RawRecord → Store → Nat → Store × Nat)
    (hp : ∀ rs s n, (apply rs s n).1.companies = s.companies) (fr : FetchResult) (st : LoopSt) :
    (runStep apply fr st).store.companies = st.store.companies := by
  unfold runStep
  split
  · rfl
  · split
    · rfl
    · split
      · exact hp _ st.store st.tick
      · rfl

theorem runStep_preserve_contacts (apply : List RawRecord → Store → Nat → Store × Nat)
    (hp : ∀ rs s n, (apply rs s n).1.contacts = s.contacts) (fr : FetchResult) (st : LoopSt) :
    (runStep apply fr st).store.contacts = st.store.contacts := by
  unfold runStep
  split
  · rfl
  · split
    · rfl
    · split
      · exact hp _ st.store st.tick
      · rfl

theorem runStep_preserve_deals (apply : List RawRecord → Store → Nat → Store × Nat)
    (hp : ∀ rs s n, (apply rs s n).1.deals = s.deals) (fr : FetchResult) (st : LoopSt) :
    (runStep apply fr st).store.deals = st.store.deals := by
  unfold runStep
  split
  · rfl
  · split
    · rfl
    · split
      · exact hp _ st.store st.tick
      · rfl

theorem runCycle_store (clock : Nat → String) (inp : CycleInput) (s : Store) (n : Nat) :
    (runCycle clock inp s n).1 =
      (runStep (upsertDeals clock) inp.dealsResp
        (runStep (upsertContacts clock) inp.contactsResp
          (runStep (upsertCompanies clock) inp.companiesResp
            (runStep (upsertTickets clock) inp.ticketsResp ⟨s, n, false⟩)))).store := rfl

theorem runStep_aborted (apply : List RawRecord → Store → Nat → Store × Nat)
    (fr : FetchResult) (st : LoopSt) (hab : st.aborted = true) : runStep apply fr st = st := by
  unfold runStep
  rw [if_pos hab]

theorem runStep_raised (apply : List RawRecord → Store → Nat → Store × Nat)
    (e : String) (st : LoopSt) : (runStep apply (.raised e) st).store = st.store := by
  unfold runStep
  split <;> rfl

theorem runStep_response (apply : List RawRecord → Store → Nat → Store × Nat)
    (status : Nat) (results : List RawRecord) (st : LoopSt) (hab : st.aborted = false) :
    runStep apply (.response status results) st =
      if status = 200 then
        ⟨(apply results st.store st.tick).1, (apply results st.store st.tick).2, false⟩
      else st := by
  unfold runStep
  rw [hab]
  simp

theorem runStep_Tickets_mem (clock : Nat → String) (fr : FetchResult) (st : LoopSt) (r : Row)
    (hr : r ∈ st.store.tickets) :
    ((∀ t ∈ fetched200 fr, keyMatches (getCol r "ticket_id") t.id = false) →
       r ∈ (runStep (upsertTickets clock) fr st).store.tickets) ∧
    (∃ r', r' ∈ (runStep (upsertTickets clock) fr st).store.tickets ∧
       getCol r' "ticket_id" = getCol r "ticket_id") := by
  by_cases hab : st.aborted = true
  · rw [runStep_aborted _ _ _ hab]
    exact ⟨fun _ => hr, ⟨r, hr, rfl⟩⟩
  · have hab' : st.aborted = false := by simpa using hab
    cases fr with
    | raised e =>
      rw [runStep_raised]
      exact ⟨fun _ => hr, ⟨r, hr, rfl⟩⟩
    | response status results =>
      rw [runStep_response _ _ _ _ hab']
      by_cases h200 : status = 200
      · rw [if_pos h200]
        constructor
        · intro hnm
          show r ∈ (upsertFold "ticket_id" normTicket clock results st.store.tickets st.tick).1
          apply upsertFold_frame "ticket_id" normTicket clock normTicket_getCol_id results
            st.store.tickets st.tick r hr
          intro t ht
          apply hnm
          show t ∈ fetched200 (.response status results)
          simp only [fetched200, h200, if_pos]
          exact ht
        · show ∃ r', r' ∈ (upsertFold "ticket_id" normTicket clock results st.store.tickets st.tick).1 ∧
            getCol r' "ticket_id" = getCol r "ticket_id"
          exact upsertFold_key "ticket_id" normTicket clock normTicket_keys_nodup results
            st.store.tickets st.tick r hr
      · rw [if_neg h200]
        exact ⟨fun _ => hr, ⟨r, hr, rfl⟩⟩

theorem runStep_Companies_mem (clock : Nat → String) (fr : FetchResult) (st : LoopSt) (r : Row)
    (hr : r ∈ st.store.companies) :
    ((∀ t ∈ fetched200 fr, keyMatches (getCol r "company_id") t.id = false) →
       r ∈ (runStep (upsertCompanies clock) fr st).store.companies) ∧
    (∃ r', r' ∈ (runStep (upsertCompanies clock) fr st).store.companies ∧
       getCol r' "company_id" = getCol r "company_id") := by
  by_cases hab : st.aborted = true
  · rw [runStep_aborted _ _ _ hab]
    exact ⟨fun _ => hr, ⟨r, hr, rfl⟩⟩
  · have hab' : st.aborted = false := by simpa using hab
    cases fr with
    | raised e =>
      rw [runStep_raised]
      exact ⟨fun _ => hr, ⟨r, hr, rfl⟩⟩
    | response status results =>
      rw [runStep_response _ _ _ _ hab']
      by_cases h200 : status = 200
      · rw [if_pos h200]
        constructor
        · intro hnm
          show r ∈ (upsertFold "company_id" normCompany clock results st.store.companies st.tick).1
          apply upsertFold_frame "company_id" normCompany clock normCompany_getCol_id results
            st.store.companies st.tick r hr
          intro t ht
          apply hnm
          show t ∈ fetched200 (.response status results)
          simp only [fetched200, h200, if_pos]
          exact ht
        · show ∃ r', r' ∈ (upsertFold "company_id" normCompany clock results st.store.companies st.tick).1 ∧
            getCol r' "company_id" = getCol r "company_id"
          exact upsertFold_key "company_id" normCompany clock normCompany_keys_nodup results
            st.store.companies st.tick r hr
      · rw [if_neg h200]
        exact ⟨fun _ => hr, ⟨r, hr, rfl⟩⟩

theorem runStep_Contacts_mem (clock : Nat → String) (fr : FetchResult) (st : LoopSt) (r : Row)
    (hr : r ∈ st.store.contacts) :
    ((∀ t ∈ fetched200 fr, keyMatches (getCol r "contact_id") t.id = false) →
       r ∈ (runStep (upsertContacts clock) fr st).store.contacts) ∧
    (∃ r', r' ∈ (runStep (upsertContacts clock) fr st).store.contacts ∧
       getCol r' "contact_id" = getCol r "contact_id") := by
  by_cases hab : st.aborted = true
  · rw [runStep_aborted _ _ _ hab]
    exact ⟨fun _ => hr, ⟨r, hr, rfl⟩⟩
  · have hab' : st.aborted = false := by simpa using hab
    cases fr with
    | raised e =>
      rw [runStep_raised]
      exact ⟨fun _ => hr, ⟨r, hr, rfl⟩⟩
    | response status results =>
      rw [runStep_response _ _ _ _ hab']
      by_cases h200 : status = 200
      · rw [if_pos h200]
        constructor
        · intro hnm
          show r ∈ (upsertFold "contact_id" normContact clock results st.store.contacts st.tick).1
          apply upsertFold_frame "contact_id" normContact clock normContact_getCol_id results
            st.store.contacts st.tick r hr
          intro t ht
          apply hnm
          show t ∈ fetched200 (.response status results)
          simp only [fetched200, h200, if_pos]
          exact ht
        · show ∃ r', r' ∈ (upsertFold "contact_id" normContact clock results st.store.contacts st.tick).1 ∧
            getCol r' "contact_id" = getCol r "contact_id"
          exact upsertFold_key "contact_id" normContact clock normContact_keys_nodup results
            st.store.contacts st.tick r hr
      · rw [if_neg h200]
        exact ⟨fun _ => hr, ⟨r, hr, rfl⟩⟩

theorem runStep_Deals_mem (clock : Nat → String) (fr : FetchResult) (st : LoopSt) (r : Row)
    (hr : r ∈ st.store.deals) :
    ((∀ t ∈ fetched200 fr, keyMatches (getCol r "deal_id") t.id = false) →
       r ∈ (runStep (upsertDeals clock) fr st).store.deals) ∧
    (∃ r', r' ∈ (runStep (upsertDeals clock) fr st).store.deals ∧
       getCol r' "deal_id" = getCol r "deal_id") := by
  by_cases hab : st.aborted = true
  · rw [runStep_aborted _ _ _ hab]
    exact ⟨fun _ => hr, ⟨r, hr, rfl⟩⟩
  · have hab' : st.aborted = false := by simpa using hab
    cases fr with
    | raised e =>
      rw [runStep_raised]
      exact ⟨fun _ => hr, ⟨r, hr, rfl⟩⟩
    | response status results =>
      rw [runStep_response _ _ _ _ hab']
      by_cases h200 : status = 200
      · rw [if_pos h200]
        constructor
        · intro hnm
          show r ∈ (upsertFold "deal_id" normDeal clock results st.store.deals st.tick).1
          apply upsertFold_frame "deal_id" normDeal clock normDeal_getCol_id results
            st.store.deals st.tick r hr
          intro t ht
          apply hnm
          show t ∈ fetched200 (.response status results)
          simp only [fetched200, h200, if_pos]
          exact ht
        · show ∃ r', r' ∈ (upsertFold "deal_id" normDeal clock results st.store.deals st.tick).1 ∧
            getCol r' "deal_id" = getCol r "deal_id"
          exact upsertFold_key "deal_id" normDeal clock normDeal_keys_nodup results
            st.store.deals st.tick r hr
      · rw [if_neg h200]
        exact ⟨fun _ => hr, ⟨r, hr, rfl⟩⟩

theorem runCycle_tickets_proj (clock : Nat → String) (inp : CycleInput) (s : Store) (n : Nat) :
    (runCycle clock inp s n).1.tickets =
      (runStep (upsertTickets clock) inp.ticketsResp ⟨s, n, false⟩).store.tickets := by
  rw [runCycle_store]
  rw [runStep_preserve_tickets (upsertDeals clock) (fun _ _ _ => rfl)]
  rw [runStep_preserve_tickets (upsertContacts clock) (fun _ _ _ => rfl)]
  rw [runStep_preserve_tickets (upsertCompanies clock) (fun _ _ _ => rfl)]

theorem runCycle_companies_proj (clock : Nat → String) (inp : CycleInput) (s : Store) (n : Nat) :
    (runCycle clock inp s n).1.companies =
      (runStep (upsertCompanies clock) inp.companiesResp
        (runStep (upsertTickets clock) inp.ticketsResp ⟨s, n, false⟩)).store.companies := by
  rw [runCycle_store]
  rw [runStep_preserve_companies (upsertDeals clock) (fun _ _ _ => rfl)]
  rw [runStep_preserve_companies (upsertContacts clock) (fun _ _ _ => rfl)]

theorem runCycle_contacts_proj (clock : Nat → String) (inp : CycleInput) (s : Store) (n : Nat) :
    (runCycle clock inp s n).1.contacts =
      (runStep (upsertContacts clock) inp.contactsResp
        (runStep (upsertCompanies clock) inp.companiesResp
          (runStep (upsertTickets clock) inp.ticketsResp ⟨s, n, false⟩))).store.contacts := by
  rw [runCycle_store]
  rw [runStep_preserve_contacts (upsertDeals clock) (fun _ _ _ => rfl)]

theorem cycle_frame_tickets (clock : Nat → String) (inp : CycleInput) (s : Store) (n : Nat)
    (r : Row) (hr : r ∈ s.tickets) :
    ((∀ t ∈ fetched200 inp.ticketsResp, keyMatches (getCol r "ticket_id") t.id = false) →
       r ∈ (runCycle clock inp s n).1.tickets) ∧
    (∃ r', r' ∈ (runCycle clock inp s n).1.tickets ∧
       getCol r' "ticket_id" = getCol r "ticket_id") := by
  rw [runCycle_tickets_proj]
  exact runStep_Tickets_mem clock inp.ticketsResp ⟨s, n, false⟩ r hr

theorem cycle_frame_companies (clock : Nat → String) (inp : CycleInput) (s : Store) (n : Nat)
    (r : Row) (hr : r ∈ s.companies) :
    ((∀ t ∈ fetched200 inp.companiesResp, keyMatches (getCol r "company_id") t.id = false) →
       r ∈ (runCycle clock inp s n).1.companies) ∧
    (∃ r', r' ∈ (runCycle clock inp s n).1.companies ∧
       getCol r' "company_id" = getCol r "company_id") := by
  rw [runCycle_companies_proj]
  apply runStep_Companies_mem
  rw [runStep_preserve_companies (upsertTickets clock) (fun _ _ _ => rfl)]
  exact hr

theorem cycle_frame_contacts (clock : Nat → String) (inp : CycleInput) (s : Store) (n : Nat)
    (r : Row) (hr : r ∈ s.contacts) :
    ((∀ t ∈ fetched200 inp.contactsResp, keyMatches (getCol r "contact_id") t.id = false) →
       r ∈ (runCycle clock inp s n).1.contacts) ∧
    (∃ r', r' ∈ (runCycle clock inp s n).1.contacts ∧
       getCol r' "contact_id" = getCol r "contact_id") := by
  rw [runCycle_contacts_proj]
  apply runStep_Contacts_mem
  rw [runStep_preserve_contacts (upsertCompanies clock) (fun _ _ _ => rfl)]
  rw [runStep_preserve_contacts (upsertTickets clock) (fun _ _ _ => rfl)]
  exact hr

theorem cycle_frame_deals (clock : Nat → String) (inp : CycleInput) (s : Store) (n : Nat)
    (r : Row) (hr : r ∈ s.deals) :
    ((∀ t ∈ fetched200 inp.dealsResp, keyMatches (getCol r "deal_id") t.id = false) →
       r ∈ (runCycle clock inp s n).1.deals) ∧
    (∃ r', r' ∈ (runCycle clock inp s n).1.deals ∧
       getCol r' "deal_id" = getCol r "deal_id") := by
  rw [runCycle_store]
  apply runStep_Deals_mem
  rw [runStep_preserve_deals (upsertContacts clock) (fun _ _ _ => rfl)]
  rw [runStep_preserve_deals (upsertCompanies clock) (fun _ _ _ => rfl)]
  rw [runStep_preserve_deals (upsertTickets clock) (fun _ _ _ => rfl)]
  exact hr

theorem stepKindExc_ok (apply : List RawRecord → Store → Nat → Store × Nat)
    (fr : FetchResult) (s : Store) (n : Nat) (p : Store × Nat)
    (h : stepKindExc apply fr s n = .ok p) :
    runStep apply fr ⟨s, n, false⟩ = ⟨p.1, p.2, false⟩ := by
  cases fr with
  | raised e => simp [stepKindExc] at h
  | response status results =>
    simp only [stepKindExc] at h
    by_cases h200 : status = 200
    · rw [if_pos h200] at h
      cases h
      rw [runStep_response _ _ _ _ rfl, if_pos h200]
    · rw [if_neg h200] at h
      cases h
      rw [runStep_response _ _ _ _ rfl, if_neg h200]

theorem stepKindExc_err (apply : List RawRecord → Store → Nat → Store × Nat)
    (fr : FetchResult) (s : Store) (n : Nat) (e : String) (s' : Store) (n' : Nat)
    (h : stepKindExc apply fr s n = .error (e, s', n')) :
    runStep apply fr ⟨s, n, false⟩ = ⟨s', n', true⟩ ∧ s' = s ∧ n' = n := by
  cases fr with
  | raised e0 =>
    simp only [stepKindExc] at h
    have h' : e0 = e ∧ s = s' ∧ n = n' := by simpa using h
    obtain ⟨he, hs, hn⟩ := h'
    subst hs
    subst hn
    refine ⟨?_, rfl, rfl⟩
    unfold runStep
    simp
  | response status results =>
    simp only [stepKindExc] at h
    split at h <;> simp at h

theorem runCycle_nested (clock : Nat → String) (inp : CycleInput) (s : Store) (n : Nat) :
    runCycle clock inp s n =
      ((runStep (upsertDeals clock) inp.dealsResp
          (runStep (upsertContacts clock) inp.contactsResp
            (runStep (upsertCompanies clock) inp.companiesResp
              (runStep (upsertTickets clock) inp.ticketsResp ⟨s, n, false⟩)))).store,
       (runStep (upsertDeals clock) inp.dealsResp
          (runStep (upsertContacts clock) inp.contactsResp
            (runStep (upsertCompanies clock) inp.companiesResp
              (runStep (upsertTickets clock) inp.ticketsResp ⟨s, n, false⟩)))).tick) := rfl

theorem runCycle_eq_catch (clock : Nat → String) (inp : CycleInput) (s : Store) (n : Nat) :
    runCycle clock inp s n =
      match cycleBody clock inp s n with
      | .ok p => p
      | .error q => (q.2.1, q.2.2) := by
  unfold cycleBody
  rw [runCycle_nested]
  cases h1 : stepKindExc (upsertTickets clock) inp.ticketsResp s n with
  | error q1 =>
    rcases q1 with ⟨e1, s1, n1⟩
    obtain ⟨hr1, hs1, hn1⟩ := stepKindExc_err _ _ _ _ _ _ _ h1
    rw [hr1]
    rw [runStep_aborted _ _ _ rfl, runStep_aborted _ _ _ rfl, runStep_aborted _ _ _ rfl]
    simp [Bind.bind, Except.bind]
  | ok p1 =>
    rw [stepKindExc_ok _ _ _ _ _ h1]
    cases h2 : stepKindExc (upsertCompanies clock) inp.companiesResp p1.1 p1.2 with
    | error q2 =>
      rcases q2 with ⟨e2, s2, n2⟩
      obtain ⟨hr2, hs2, hn2⟩ := stepKindExc_err _ _ _ _ _ _ _ h2
      rw [hr2]
      rw [runStep_aborted _ _ _ rfl, runStep_aborted _ _ _ rfl]
      simp [Bind.bind, Except.bind, h2, hs2, hn2]
    | ok p2 =>
      rw [stepKindExc_ok _ _ _ _ _ h2]
      cases h3 : stepKindExc (upsertContacts clock) inp.contactsResp p2.1 p2.2 with
      | error q3 =>
        rcases q3 with ⟨e3, s3, n3⟩
        obtain ⟨hr3, hs3, hn3⟩ := stepKindExc_err _ _ _ _ _ _ _ h3
        rw [hr3]
        rw [runStep_aborted _ _ _ rfl]
        simp [Bind.bind, Except.bind, h2, h3, hs3, hn3]
      | ok p3 =>
        rw [stepKindExc_ok _ _ _ _ _ h3]
        cases h4 : stepKindExc (upsertDeals clock) inp.dealsResp p3.1 p3.2 with
        | error q4 =>
          rcases q4 with ⟨e4, s4, n4⟩
          obtain ⟨hr4, hs4, hn4⟩ := stepKindExc_err _ _ _ _ _ _ _ h4
          rw [hr4]
          simp [Bind.bind, Except.bind, h2, h3, h4, hs4, hn4]
        | ok p4 =>
          rw [stepKindExc_ok _ _ _ _ _ h4]
          simp [Bind.bind, Except.bind, h2, h3, h4]

/-- C4: upsert is idempotent with last-write-wins semantics: on a table whose
rows hold at most one row keyed `k` (the primary-key invariant SQLite
enforces), upserting twice with key `k` leaves exactly one row keyed `k` —
never two — and every column provided by the latter call carries the latter
call's value. -/
theorem C4_upsert_idempotent_last_write_wins (rows : List Row) (d1 d2 : Row) (pk k : String)
    (h1 : getCol d1 pk = some k) (h2 : getCol d2 pk = some k)
    (hn1 : (d1.map Prod.fst).Nodup) (hn2 : (d2.map Prod.fst).Nodup)
    (hc : keyCount rows pk (some k) ≤ 1) :
    keyCount (upsert (upsert rows d1 pk) d2 pk) pk (some k) = 1 ∧
    ∀ r ∈ upsert (upsert rows d1 pk) d2 pk,
      keyMatches (getCol r pk) (some k) = true → ∀ c w, (c, w) ∈ d2 → getCol r c = w := by
  have hk1 : keyCount (upsert rows d1 pk) pk (some k) = 1 :=
    keyCount_upsert_self rows d1 pk k h1 hn1 hc
  constructor
  · exact keyCount_upsert_self _ d2 pk k h2 hn2 (le_of_eq hk1)
  · intro r hrm hk c w hcw
    exact getCol_upsert_match _ d2 pk k h2 hn2 c w hcw r hrm hk

theorem C4_witness :
    keyCount (upsert (upsert [] c4d1 "k") c4d2 "k") "k" (some "1") = 1 ∧
    getCol [("k", some "1"), ("a", some "y")] "a" = some "y" :=
  ⟨(C4_upsert_idempotent_last_write_wins [] c4d1 c4d2 "k" "1" rfl rfl (by decide) (by decide)
      (by decide)).1,
   (C4_upsert_idempotent_last_write_wins [] c4d1 c4d2 "k" "1" rfl rfl (by decide) (by decide)
      (by decide)).2 [("k", some "1"), ("a", some "y")] (by decide) (by decide)
      "a" (some "y") (by decide)⟩

/-- C1 counterexample: a stored ticket with non-empty `created_at`
"2020-01-01T00:00:00" is re-fetched in a later cycle with changed content and
`createdate` "2021-05-05T00:00:00"; after the cycle the stored `created_at`
is the new value, not the original one — the upsert blindly overwrites
`created_at` instead of preserving it. -/
theorem C1_counterexample :
    getCol c1StoredTicket "created_at" = some "2020-01-01T00:00:00" ∧
    (runCycle clockT c1Input ⟨[c1StoredTicket], [], [], []⟩ 0).1.tickets.map
        (fun r => getCol r "created_at") = [some "2021-05-05T00:00:00"] ∧
    (some "2021-05-05T00:00:00" : Value) ≠ some "2020-01-01T00:00:00" := by
  refine ⟨rfl, by decide, by decide⟩

/-- C1 amended: upserting a re-fetched ticket with the same `ticket_id`
overwrites every provided field including `created_at`: after the upsert the
row keyed `k` stores exactly the `createdate` value the fetch provided, so
the original `created_at` survives only when the new fetch provides the same
value; the merge is a blind overwrite, not a create-date-preserving upsert. -/
theorem C1_amended (rows : List Row) (t : RawRecord) (now : String) (k : String)
    (hid : t.id = some k) :
    ∀ r ∈ upsert rows (normTicket t now) "ticket_id",
      keyMatches (getCol r "ticket_id") (some k) = true →
      getCol r "created_at" = getProp t.properties "createdate" := by
  intro r hr hk
  exact getCol_upsert_match rows (normTicket t now) "ticket_id" k
    (by rw [normTicket_getCol_id, hid]) (normTicket_keys_nodup t now)
    "created_at" (getProp t.properties "createdate") (by simp [normTicket]) r hr hk

theorem C1_amended_witness :
    getCol (updateRow (normTicket c1Refetch "T") c1StoredTicket) "created_at"
      = getProp c1Refetch.properties "createdate" :=
  C1_amended [c1StoredTicket] c1Refetch "T" "1" rfl
    (updateRow (normTicket c1Refetch "T") c1StoredTicket) (by decide) (by decide)

/-- C5: the sync loop never terminates due to an error raised inside a cycle:
every outcome of the raising cycle body (`cycleBody`) is absorbed by the
`except Exception` handler — on `.ok` the loop continues with the result, on
`.error` it continues with the state committed up to the raise point — and
the loop always proceeds to the next cycle. -/
theorem C5_loop_error_contained (clock : Nat → String) (inp : CycleInput)
    (rest : List CycleInput) (s : Store) (n : Nat) :
    learning_loop_n clock (inp :: rest) s n =
      learning_loop_n clock rest (runCycle clock inp s n).1 (runCycle clock inp s n).2 ∧
    (∀ e s' n', cycleBody clock inp s n = .error (e, s', n') →
       runCycle clock inp s n = (s', n')) ∧
    (∀ p, cycleBody clock inp s n = .ok p → runCycle clock inp s n = p) := by
  refine ⟨rfl, ?_, ?_⟩
  · intro e s' n' h
    rw [runCycle_eq_catch, h]
  · intro p h
    rw [runCycle_eq_catch, h]

theorem C5_witness : runCycle clockT c2FailInput emptyStore 0 = (emptyStore, 0) :=
  (C5_loop_error_contained clockT c2FailInput [] emptyStore 0).2.1 "ReadTimeout" emptyStore 0 rfl

/-- C3 counterexample: in one cycle fetching two tickets, under a clock that
reads "A" on its first call and "B" afterwards, the two rows written in the
same cycle carry the distinct `last_seen` values "A" and "B" — not a single
shared cycle-start timestamp. -/
theorem C3_counterexample :
    (runCycle clockAB c3Input emptyStore 0).1.tickets.map (fun r => getCol r "last_seen")
      = [some "A", some "B"] ∧ (some "A" : Value) ≠ some "B" := by
  refine ⟨by decide, by decide⟩

/-- C3 amended: `last_seen` is read from the clock once per record at that
record's own upsert (`datetime.utcnow()` inside the loop), not once per
cycle: the two records of a cycle that fetches fresh tickets `t1, t2` are
stored with `last_seen` equal to the clock values at ticks `n` and `n + 1`
respectively, which differ whenever the clock advances between the calls. -/
theorem C3_amended (clock : Nat → String) (cR coR dR : FetchResult) (t1 t2 : RawRecord)
    (k1 k2 : String) (comps conts dls : List Row) (n : Nat)
    (h1 : t1.id = some k1) (h2 : t2.id = some k2) (hk : k1 ≠ k2) :
    (runCycle clock ⟨.response 200 [t1, t2], cR, coR, dR⟩ ⟨[], comps, conts, dls⟩ n).1.tickets
      = [normTicket t1 (clock n), normTicket t2 (clock (n + 1))] ∧
    getCol (normTicket t1 (clock n)) "last_seen" = some (clock n) ∧
    getCol (normTicket t2 (clock (n + 1))) "last_seen" = some (clock (n + 1)) := by
  refine ⟨?_, ?_, ?_⟩
  · rw [runCycle_tickets_proj]
    rw [runStep_response _ _ _ _ rfl, if_pos rfl]
    show (upsertFold "ticket_id" normTicket clock [t1, t2] [] n).1 = _
    rw [upsertFold_cons, upsertFold_cons, upsertFold_nil]
    have e1 : upsert [] (normTicket t1 (clock n)) "ticket_id" = [normTicket t1 (clock n)] := by
      unfold upsert
      simp
    rw [e1]
    have hm : keyMatches (getCol (normTicket t1 (clock n)) "ticket_id")
        (getCol (normTicket t2 (clock (n + 1))) "ticket_id") = false := by
      rw [normTicket_getCol_id, normTicket_getCol_id, h1, h2]
      simp [keyMatches, hk]
    have e2 : upsert [normTicket t1 (clock n)] (normTicket t2 (clock (n + 1))) "ticket_id"
        = [normTicket t1 (clock n), normTicket t2 (clock (n + 1))] := by
      unfold upsert
      simp [hm]
    rw [e2]
  · simp [normTicket, getCol]
  · simp [normTicket, getCol]

theorem C3_witness :
    (runCycle clockAB c3Input emptyStore 0).1.tickets
      = [normTicket tRaw1 (clockAB 0), normTicket tRaw2 (clockAB 1)] :=
  (C3_amended clockAB (.response 200 []) (.response 200 []) (.response 200 [])
      tRaw1 tRaw2 "1" "2" [] [] [] 0 rfl rfl (by decide)).1

/-- C2 counterexample: a raised timeout on the tickets fetch (the first kind)
aborts the whole cycle: the companies table stays empty although the
companies fetch would have delivered a record, while the same cycle with a
successful tickets fetch stores that company — a fetch failure for one kind
does prevent the remaining kinds from being upserted. -/
theorem C2_counterexample :
    (runCycle clockT c2FailInput emptyStore 0).1.companies = [] ∧
    (runCycle clockT c2OkInput emptyStore 0).1.companies = [normCompany c2CompanyRec "T"] := by
  refine ⟨by decide, by decide⟩

/-- C2 amended: only a non-2xx status is isolated per kind: a non-200
response for the first kind behaves exactly like a successful empty fetch,
letting the remaining kinds proceed, and a failure of the deals fetch — the
last kind — cannot affect the tickets, companies and contacts tables, which
are independent of the deals outcome; a raised exception (timeout or
transport error) in an earlier kind, however, aborts the remaining kinds of
the cycle. -/
theorem C2_amended (clock : Nat → String) (inp : CycleInput) (s : Store) (n : Nat) :
    (∀ d1 d2 : FetchResult,
       (runCycle clock { inp with dealsResp := d1 } s n).1.tickets =
         (runCycle clock { inp with dealsResp := d2 } s n).1.tickets ∧
       (runCycle clock { inp with dealsResp := d1 } s n).1.companies =
         (runCycle clock { inp with dealsResp := d2 } s n).1.companies ∧
       (runCycle clock { inp with dealsResp := d1 } s n).1.contacts =
         (runCycle clock { inp with dealsResp := d2 } s n).1.contacts) ∧
    (∀ status rs, status ≠ 200 →
       runCycle clock { inp with ticketsResp := .response status rs } s n =
         runCycle clock { inp with ticketsResp := .response 200 [] } s n) := by
  constructor
  · intro d1 d2
    refine ⟨?_, ?_, ?_⟩
    · rw [runCycle_tickets_proj, runCycle_tickets_proj]
    · rw [runCycle_companies_proj, runCycle_companies_proj]
    · rw [runCycle_contacts_proj, runCycle_contacts_proj]
  · intro status rs hst
    rw [runCycle_nested, runCycle_nested]
    have h1 : runStep (upsertTickets clock)
        ({ inp with ticketsResp := FetchResult.response status rs }).ticketsResp
        ⟨s, n, false⟩ = ⟨s, n, false⟩ := by
      show runStep (upsertTickets clock) (.response status rs) ⟨s, n, false⟩ = ⟨s, n, false⟩
      rw [runStep_response _ _ _ _ rfl, if_neg hst]
    have h2 : runStep (upsertTickets clock)
        ({ inp with ticketsResp := FetchResult.response 200 [] }).ticketsResp
        ⟨s, n, false⟩ = ⟨s, n, false⟩ := rfl
    rw [h1, h2]

theorem C2_witness :
    runCycle clockT { c2OkInput with ticketsResp := .response 500 [tRaw1] } emptyStore 0 =
      runCycle clockT { c2OkInput with ticketsResp := .response 200 [] } emptyStore 0 :=
  (C2_amended clockT c2OkInput emptyStore 0).2 500 [tRaw1] (by decide)

/-- C6: no operation of the sync core deletes a stored row: for every cycle
and every row present in a table beforehand, some row with the same primary
key is still present afterwards, and a row whose key matches none of the
records fetched for its kind in that cycle is left entirely unchanged. -/
theorem C6_no_deletion (clock : Nat → String) (inp : CycleInput) (s : Store) (n : Nat)
    (r : Row) :
    (r ∈ s.tickets →
       ((∀ t ∈ fetched200 inp.ticketsResp, keyMatches (getCol r "ticket_id") t.id = false) →
          r ∈ (runCycle clock inp s n).1.tickets) ∧
       (∃ r', r' ∈ (runCycle clock inp s n).1.tickets ∧
          getCol r' "ticket_id" = getCol r "ticket_id")) ∧
    (r ∈ s.companies →
       ((∀ t ∈ fetched200 inp.companiesResp, keyMatches (getCol r "company_id") t.id = false) →
          r ∈ (runCycle clock inp s n).1.companies) ∧
       (∃ r', r' ∈ (runCycle clock inp s n).1.companies ∧
          getCol r' "company_id" = getCol r "company_id")) ∧
    (r ∈ s.contacts →
       ((∀ t ∈ fetched200 inp.contactsResp, keyMatches (getCol r "contact_id") t.id = false) →
          r ∈ (runCycle clock inp s n).1.contacts) ∧
       (∃ r', r' ∈ (runCycle clock inp s n).1.contacts ∧
          getCol r' "contact_id" = getCol r "contact_id")) ∧
    (r ∈ s.deals →
       ((∀ t ∈ fetched200 inp.dealsResp, keyMatches (getCol r "deal_id") t.id = false) →
          r ∈ (runCycle clock inp s n).1.deals) ∧
       (∃ r', r' ∈ (runCycle clock inp s n).1.deals ∧
          getCol r' "deal_id" = getCol r "deal_id")) :=
  ⟨fun hr => cycle_frame_tickets clock inp s n r hr,
   fun hr => cycle_frame_companies clock inp s n r hr,
   fun hr => cycle_frame_contacts clock inp s n r hr,
   fun hr => cycle_frame_deals clock inp s n r hr⟩

theorem C6_witness :
    c1StoredTicket ∈ (runCycle clockT c6Input c6Store 0).1.tickets ∧
    dealRow "9" "c9" ∈ (runCycle clockT c6Input c6Store 0).1.deals :=
  ⟨((C6_no_deletion clockT c6Input c6Store 0 c1StoredTicket).1 (by decide)).1 (by decide),
   ((C6_no_deletion clockT c6Input c6Store 0 (dealRow "9" "c9")).2.2.2 (by decide)).1
     (by decide)⟩

/-- C7: the knowledge-base candidates list has at most 5 entries, is sorted
by count descending, every entry is a non-empty subject paired with its
exact occurrence count among stored tickets (and occurring at least once);
on the store of six "billing issue" tickets and one "other" ticket, the
first entry is ("billing issue", 6). -/
theorem C7_kb_candidates :
    (∀ T : List Row,
       (kb_candidates T).length ≤ 5 ∧
       (kb_candidates T).Sorted countGE ∧
       ∀ p ∈ kb_candidates T, p.1 ≠ "" ∧ p.2 = (subjectsList T).count p.1 ∧ 0 < p.2) ∧
    (kb_candidates billingStore).head? = some ("billing issue", 6) := by
  constructor
  · intro T
    refine ⟨?_, ?_, ?_⟩
    · unfold kb_candidates
      rw [List.length_take]
      exact min_le_left _ _
    · exact List.Pairwise.sublist (List.take_sublist _ _)
        (List.sorted_insertionSort countGE (groupCounts T))
    · intro p hp
      have hp1 : p ∈ (groupCounts T).insertionSort countGE := List.mem_of_mem_take hp
      have hp2 : p ∈ groupCounts T :=
        (List.perm_insertionSort countGE (groupCounts T)).mem_iff.mp hp1
      rcases List.mem_map.mp hp2 with ⟨sub, hsub, hps⟩
      have hsl : sub ∈ subjectsList T := List.mem_dedup.mp hsub
      have hne : sub ≠ "" := by
        rcases List.mem_filterMap.mp hsl with ⟨r0, _, hm0⟩
        cases hg : getCol r0 "subject" with
        | none => rw [hg] at hm0; simp at hm0
        | some s0 =>
          rw [hg] at hm0
          by_cases hs0 : s0 = ""
          · simp [hs0] at hm0
          · simp [hs0] at hm0
            rw [← hm0]
            exact hs0
      rw [← hps]
      refine ⟨hne, rfl, ?_⟩
      exact List.count_pos_iff.mpr hsl
  · decide

theorem C7_witness :
    (kb_candidates billingStore).length ≤ 5 ∧
    ("billing issue", 6).2 = (subjectsList billingStore).count ("billing issue", 6).1 :=
  ⟨(C7_kb_candidates.1 billingStore).1,
   ((C7_kb_candidates.1 billingStore).2.2 ("billing issue", 6) (by decide)).2.1⟩

/-- C8: the ">5 deals" workflow candidate triggers exactly on companies with
strictly more than five associated deals: a company id with six associated
deals is in the qualifying `heavy_companies` list, one with exactly five is
not. -/
theorem C8_workflow_threshold (deals : List Row) (cid : String) :
    (assocDealCount deals cid = 6 → cid ∈ heavy_companies deals) ∧
    (assocDealCount deals cid = 5 → cid ∉ heavy_companies deals) := by
  constructor
  · intro h6
    unfold heavy_companies
    apply List.mem_filter.mpr
    constructor
    · apply List.mem_dedup.mpr
      apply List.count_pos_iff.mp
      unfold assocDealCount at h6
      omega
    · simp [h6]
  · intro h5 hmem
    have hf := (List.mem_filter.mp hmem).2
    simp [h5] at hf

theorem C8_witness :
    "c1" ∈ heavy_companies sixDeals ∧ "c2" ∉ heavy_companies fiveDeals :=
  ⟨(C8_workflow_threshold sixDeals "c1").1 (by decide),
   (C8_workflow_threshold fiveDeals "c2").2 (by decide)⟩

theorem length_filter_le_of_imp {α : Type} (p q : α → Bool) (l : List α)
    (h : ∀ a, q a = true → p a = true) :
    (l.filter q).length ≤ (l.filter p).length := by
  induction l with
  | nil => simp
  | cons a l ih =>
    by_cases hq : q a = true
    · have hp := h a hq
      simp [List.filter_cons, hq, hp]
      omega
    · have hq' : q a = false := by simpa using hq
      rw [List.filter_cons, List.filter_cons]
      by_cases hp : p a = true <;> simp [hq', hp] <;> omega

/-- C9 counterexample: the escalation query applies no resolution filter —
the store records no resolution status at all — so under a resolvedness
assignment marking the one stored (30-day-old) ticket resolved, the code
counts 1 ticket while the spec's "older than the threshold and not yet
resolved" set is empty. -/
theorem C9_counterexample :
    old_tickets_count c9Threshold [c9OldTicket] = 1 ∧
    escalationCount_specModel c9Threshold allResolved [c9OldTicket] = 0 ∧
    old_tickets_count c9Threshold [c9OldTicket]
      ≠ escalationCount_specModel c9Threshold allResolved [c9OldTicket] := by
  refine ⟨by decide, by decide, by decide⟩

/-- C9 amended: the escalation count is exactly the number of tickets whose
`created_at` text-compares below the 30-day threshold (NULL excluded), with
no resolution filter: it coincides with the spec's count only under the
assignment marking no ticket resolved, and for every resolvedness assignment
the spec's count is at most the code's. -/
theorem C9_amended (threshold : String) (tickets : List Row) :
    old_tickets_count threshold tickets
      = escalationCount_specModel threshold noneResolved tickets ∧
    ∀ resolved : Row → Bool,
      escalationCount_specModel threshold resolved tickets
        ≤ old_tickets_count threshold tickets := by
  constructor
  · unfold old_tickets_count escalationCount_specModel noneResolved
    congr 1
    apply List.filter_congr
    intro r _
    simp
  · intro resolved
    unfold old_tickets_count escalationCount_specModel
    apply length_filter_le_of_imp
    intro a ha
    simp only [Bool.and_eq_true] at ha
    exact ha.1

/-- C10: a deal whose `company_id` is the empty string satisfies the
orphan-deal predicate (`company_id IS NULL OR company_id=''`) and at the
same time passes the `company_id IS NOT NULL` filter of the more-than-5-deals
grouping, contributing to the association count of the "company" with id "";
with six such deals, the orphan count is 6 and "" qualifies as a heavy
company, so the same deals feed both workflow candidates. -/
theorem C10_empty_company_id (deals : List Row) (r : Row) (hr : r ∈ deals)
    (hc : getCol r "company_id" = some "") :
    isOrphanDeal r = true ∧
    ("" : String) ∈ dealCompanyIdsNonNull deals ∧
    0 < orphan_deals_count deals ∧
    (5 < assocDealCount deals "" → ("" : String) ∈ heavy_companies deals) ∧
    (orphan_deals_count sixEmptyDeals = 6 ∧ ("" : String) ∈ heavy_companies sixEmptyDeals) := by
  have horph : isOrphanDeal r = true := by
    unfold isOrphanDeal
    rw [hc]
    rfl
  refine ⟨horph, ?_, ?_, ?_, by decide, by decide⟩
  · exact List.mem_filterMap.mpr ⟨r, hr, hc⟩
  · unfold orphan_deals_count
    have hmem : r ∈ deals.filter isOrphanDeal := List.mem_filter.mpr ⟨hr, horph⟩
    exact List.length_pos.mpr (List.ne_nil_of_mem hmem)
  · intro h5
    unfold heavy_companies
    apply List.mem_filter.mpr
    exact ⟨List.mem_dedup.mpr (List.mem_filterMap.mpr ⟨r, hr, hc⟩), by simp [h5]⟩

theorem C10_witness :
    isOrphanDeal (dealRow "1" "") = true ∧
    ("" : String) ∈ dealCompanyIdsNonNull sixEmptyDeals :=
  ⟨(C10_empty_company_id sixEmptyDeals (dealRow "1" "") (by decide) (by decide)).1,
   (C10_empty_company_id sixEmptyDeals (dealRow "1" "") (by decide) (by decide)).2.1⟩
